import Mathlib

/-!
Verification development for the aiDAPTIV+ demo backend.

The definitions below are a shallow embedding, in Lean, of the Python
sources under `backend/`:

* `services/orchestrator.py` — `SimulationOrchestrator` (run loop, batch
  trigger, agent cycle, metric extraction, crash event);
* `services/memory_monitor.py` — `MemoryMonitor`;
* `services/context_manager.py` — `ContextManager`.

Modelling conventions: Python floats are modelled as rationals (`ℚ`),
Python ints as `ℤ` or `ℕ` where the value is evidently a count, Python
strings as Lean `String`, Python sets of strings as duplicate-free lists
used only through membership and insertion.  External collaborators
(psutil telemetry, the Ollama client, the Chroma vector store) are
modelled as inputs supplied by an environment record.  I/O-only side
effects (logging, saving state to disk, sleeping) have no observable
effect on the modelled state or event stream and are omitted.
-/

namespace AiDaptiv

/-! ## String helpers (models of Python `str` operations) -/

/-- Model of Python `str.strip()`: drop whitespace from both ends. -/
def pyStrip (s : String) : String :=
  String.mk (((s.data.dropWhile Char.isWhitespace).reverse.dropWhile Char.isWhitespace).reverse)

/-- Whether `pat` occurs at the start of `s` (on character lists). -/
def startsWithChars (pat s : List Char) : Bool :=
  match pat, s with
  | [], _ => true
  | _ :: _, [] => false
  | p :: ps, c :: cs => p == c && startsWithChars ps cs

/-- Model of Python `sub in s` (substring containment) on character lists. -/
def containsChars (pat : List Char) : List Char → Bool
  | [] => startsWithChars pat []
  | c :: cs => startsWithChars pat (c :: cs) || containsChars pat cs

/-- Model of Python `sub in s` on strings. -/
def containsSub (pat s : String) : Bool :=
  containsChars pat.data s.data

/-- Model of Python `s.startswith(pat)` on strings. -/
def startsWithStr (pat s : String) : Bool :=
  startsWithChars pat.data s.data

/-- Model of Python `str.lower()` (ASCII case folding, as used on the
ASCII document names and model identifiers in this code base). -/
def pyLower (s : String) : String :=
  String.mk (s.data.map Char.toLower)

/-! ## Metric extraction (`SimulationOrchestrator._extract_metrics`)

`_extract_metrics` scans the model output with the case-insensitive
regular expressions `\[TOPIC:\s*([^\]]+)\]` (and likewise for `PATTERN`,
`INSIGHT`, `FLAG`).  We model `re.findall` for this specific pattern
shape: scan left to right; at a position where `[<tag>:` matches
case-insensitively, the match extends to the first following `]`, and
succeeds iff at least one character stands between the `:` and the `]`;
the capture group is that segment minus the whitespace consumed by the
greedy `\s*` (which leaves at least one character); scanning resumes
after the `]`.  Matched values are then passed through `strip()`. -/

/-- Case-insensitive prefix match; returns the rest of the input after
the pattern when it matches. -/
def dropCI : List Char → List Char → Option (List Char)
  | [], s => some s
  | _ :: _, [] => none
  | p :: ps, c :: cs => if p.toLower = c.toLower then dropCI ps cs else none

/-- Split the input at the first `]`: returns the segment before it and
the rest after it, or `none` when no `]` occurs. -/
def takeToBracket : List Char → Option (List Char × List Char)
  | [] => none
  | c :: cs =>
    if c = ']' then some ([], cs)
    else (takeToBracket cs).map (fun r => (c :: r.1, r.2))

/-- The capture group of `\s*([^\]]+)` applied to a (nonempty) segment:
the greedy `\s*` eats leading whitespace but leaves at least one
character for the `+`. -/
def captureOf (seg : List Char) : List Char :=
  let t := seg.dropWhile Char.isWhitespace
  if t.isEmpty then
    match seg.getLast? with
    | some c => [c]
    | none => []
  else t

/-- Fuelled scanner for `\[<tag>:\s*([^\]]+)\]`.  `pat` is the literal
prefix `[<tag>:`.  Fuel bounds the number of scan steps; each step
consumes at least one input character, so fuel equal to the input length
computes the exact `re.findall` result. -/
def scanTagFuel (pat : List Char) : ℕ → List Char → List (List Char)
  | 0, _ => []
  | _, [] => []
  | fuel + 1, c :: cs =>
    match dropCI pat (c :: cs) with
    | some rest =>
      match takeToBracket rest with
      | some (seg, after) =>
        if seg = [] then scanTagFuel pat fuel cs
        else captureOf seg :: scanTagFuel pat fuel after
      | none => scanTagFuel pat fuel cs
    | none => scanTagFuel pat fuel cs

/-- All capture groups of the tag pattern for `tag` in `text`, in order. -/
def tagMatches (tag : String) (text : String) : List String :=
  (scanTagFuel (('[' :: tag.data) ++ [':']) text.data.length text.data).map String.mk

/-- The four metric counters of `SimulationOrchestrator.metrics`. -/
inductive MetricName where
  | key_topics
  | patterns_detected
  | insights_generated
  | critical_flags
  deriving DecidableEq, Repr

/-- Dict order of the `patterns` dict in `_extract_metrics`. -/
def metricNames : List MetricName :=
  [.key_topics, .patterns_detected, .insights_generated, .critical_flags]

/-- Tag word paired with each metric counter in `_extract_metrics`. -/
def tagOf : MetricName → String
  | .key_topics => "TOPIC"
  | .patterns_detected => "PATTERN"
  | .insights_generated => "INSIGHT"
  | .critical_flags => "FLAG"

/-- A `metric` event datum: counter name and the emitted `value`
(`MetricData` in `models/schemas.py`). -/
abbrev MetricEvt := MetricName × ℕ

/-- The orchestrator's dedup state: `unique_topics` / `unique_patterns` /
`unique_insights` / `unique_flags` (modelled as one indexed family of
seen-value lists) and the `metrics` counter dict. -/
structure MetricsState where
  seen : MetricName → List String
  counter : MetricName → ℕ

/-- State at orchestrator construction: empty sets, zero counters. -/
def MetricsState.init : MetricsState :=
  { seen := fun _ => [], counter := fun _ => 0 }

/-- Sequencing combinator for event-emitting state transformers: run `f`
on each list element in order, threading the state and concatenating the
emitted events.  All three loop levels of the extractor (values of one
pattern, the four patterns, the extraction calls of one run) share this
shape. -/
def chain (f : σ → α → σ × List β) : σ → List α → σ × List β
  | s, [] => (s, [])
  | s, a :: as =>
    let r := f s a
    let r' := chain f r.1 as
    (r'.1, r.2 ++ r'.2)

/-- One normalized match (`value = match.strip()` already applied):
first occurrence inserts into the seen set, bumps the counter and emits
one event carrying the bumped counter; repeats emit nothing. -/
def processValue (st : MetricsState) (m : MetricName) (v : String) :
    MetricsState × List MetricEvt :=
  if v ∈ st.seen m then (st, [])
  else
    ({ seen := fun n => if n = m then v :: st.seen n else st.seen n,
       counter := fun n => if n = m then st.counter n + 1 else st.counter n },
     [(m, st.counter m + 1)])

/-- Fold of `processValue` over the raw matches of one metric's pattern
(each value is stripped first, as in `value = match.strip()`). -/
def processValues (m : MetricName) (st : MetricsState) (vals : List String) :
    MetricsState × List MetricEvt :=
  chain (fun s v => processValue s m (pyStrip v)) st vals

/-- Model of `SimulationOrchestrator._extract_metrics`: for each of the
four patterns in dict order, find all matches, strip each value and
dedup-count it, appending the emitted events in order. -/
def extract_metrics (st : MetricsState) (text : String) :
    MetricsState × List MetricEvt :=
  chain (fun s m => processValues m s (tagMatches (tagOf m) text)) st metricNames

/-- Sequential extraction calls over one run, from the given state. -/
def extractRun (st : MetricsState) (texts : List String) :
    MetricsState × List MetricEvt :=
  chain extract_metrics st texts

/-- Values carried by the events of one metric, in emission order. -/
def mValues (m : MetricName) (evs : List MetricEvt) : List ℕ :=
  evs.filterMap (fun e => if e.1 = m then some e.2 else none)

/-- All stripped tag values one run's texts contain for metric `m`. -/
def strippedValues (m : MetricName) (texts : List String) : List String :=
  (texts.flatMap (fun t => tagMatches (tagOf m) t)).map pyStrip

/-! ## Memory monitor (`services/memory_monitor.py`) -/

/-- One psutil reading: `psutil.virtual_memory()` and
`psutil.swap_memory()` figures, in bytes (floats modelled as `ℚ`). -/
structure Telemetry where
  vm_used_bytes : ℚ
  vm_total_bytes : ℚ
  vm_percent : ℚ
  swap_used_bytes : ℚ
  swap_percent : ℚ
  deriving DecidableEq, Repr

/-- Round-half-to-even on `ℚ`, the tie rule of Python `round`. -/
def roundHalfEven (x : ℚ) : ℤ :=
  let f := ⌊x⌋
  let frac := x - f
  if frac < 1 / 2 then f
  else if frac > 1 / 2 then f + 1
  else if f % 2 = 0 then f else f + 1

/-- Model of Python `round(x, 1)`. -/
def round1 (x : ℚ) : ℚ := (roundHalfEven (x * 10) : ℚ) / 10

/-- Model of Python `round(x, 2)`. -/
def round2 (x : ℚ) : ℚ := (roundHalfEven (x * 100) : ℚ) / 100

/-- Model of Python `int(q)` for a float value: truncation toward 0. -/
def pyInt (q : ℚ) : ℤ :=
  if 0 ≤ q then ⌊q⌋ else -⌊-q⌋

/-- The `MemoryData` payload model (`models/schemas.py`). -/
structure MemoryData where
  unified_percent : ℚ
  unified_gb : ℚ
  unified_total_gb : ℚ
  virtual_percent : ℚ
  virtual_gb : ℚ
  virtual_active : Bool
  context_tokens : ℤ
  kv_cache_gb : ℚ
  model_weights_gb : ℚ
  loaded_model : String
  deriving DecidableEq, Repr

/-- State of `MemoryMonitor` (`memory_monitor.py`, `__init__` fields). -/
structure MemoryMonitor where
  aidaptiv_enabled : Bool
  baseline_swap_gb : ℚ
  context_tokens : ℤ
  current_model_name : String
  current_model_size_gb : ℚ
  deriving DecidableEq, Repr

/-- Model of `MemoryMonitor.__init__`: captures the baseline swap usage from the
construction-time telemetry reading. -/
def MemoryMonitor.init (aidaptiv_enabled : Bool) (t0 : Telemetry) : MemoryMonitor :=
  { aidaptiv_enabled := aidaptiv_enabled
    baseline_swap_gb := t0.swap_used_bytes / (1024 ^ 3 : ℚ)
    context_tokens := 0
    current_model_name := "llama3.1:8b"
    current_model_size_gb := 5 }

/-- Model of `MemoryMonitor.set_context_size`. -/
def MemoryMonitor.set_context_size (m : MemoryMonitor) (tokens : ℤ) : MemoryMonitor :=
  { m with context_tokens := tokens }

/-- The `model_sizes` table of `MemoryMonitor.set_model_size`. -/
def modelSizeTable (name : String) : ℚ :=
  if name = "llama3.1:8b" then 5
  else if name = "qwen2.5:14b" then 9
  else if name = "qwen2.5:32b" then 19
  else if name = "llava:13b" then 8
  else if name = "llava:34b" then 20
  else if name = "llava" then 47 / 10
  else 5

/-- Model of `MemoryMonitor.set_model_size`. -/
def MemoryMonitor.set_model_size (m : MemoryMonitor) (name : String) : MemoryMonitor :=
  { m with current_model_name := name, current_model_size_gb := modelSizeTable name }

/-- Model of `MemoryMonitor._estimate_kv_cache_size`.  `ollama_kv` models the
optional Ollama telemetry value (`none` when that lookup is unavailable
or fails, in which case the formula-based fallback applies). -/
def MemoryMonitor.estimate_kv_cache_size (m : MemoryMonitor) (ollama_kv : Option ℚ) : ℚ :=
  if m.context_tokens = 0 then 0
  else
    match ollama_kv with
    | some v => v
    | none =>
      round2 (((m.context_tokens : ℚ) / 1000) * (15 / 1000) * (m.current_model_size_gb / 5))

/-- Model of `MemoryMonitor.calculate_memory`: builds the snapshot from the
current telemetry reading and decides the crash predicate: crash iff
aiDAPTIV+ is off and swap grew more than 2 GB over the baseline. -/
def MemoryMonitor.calculate_memory (m : MemoryMonitor) (t : Telemetry)
    (ollama_kv : Option ℚ) : MemoryData × Bool :=
  let unified_gb := t.vm_used_bytes / (1024 ^ 3 : ℚ)
  let unified_total_gb := t.vm_total_bytes / (1024 ^ 3 : ℚ)
  let unified_percent := t.vm_percent
  let virtual_gb := t.swap_used_bytes / (1024 ^ 3 : ℚ)
  let virtual_active := decide (virtual_gb > 1 / 10)
  let virtual_percent := t.swap_percent
  let swap_delta := virtual_gb - m.baseline_swap_gb
  let should_crash := !m.aidaptiv_enabled && decide (swap_delta > 2)
  let kv_cache_gb := m.estimate_kv_cache_size ollama_kv
  ({ unified_percent := round1 unified_percent
     unified_gb := round2 unified_gb
     unified_total_gb := round1 unified_total_gb
     virtual_percent := round1 virtual_percent
     virtual_gb := round2 virtual_gb
     virtual_active := virtual_active
     context_tokens := m.context_tokens
     kv_cache_gb := kv_cache_gb
     model_weights_gb := m.current_model_size_gb
     loaded_model := m.current_model_name },
   should_crash)

/-! ## Context manager (`services/context_manager.py`) -/

/-- A document as stored in the active context: name, content (empty
string models a missing/falsy content) and the token count attached on
admission. -/
structure CtxDoc where
  name : String
  content : String
  tokens : ℤ
  deriving DecidableEq, Repr

/-- State of `ContextManager`.  `has_chroma` models whether
`self.chroma_client` is non-`None`. -/
structure ContextManager where
  active_documents : List CtxDoc
  total_tokens : ℤ
  max_tokens_ram : ℤ
  has_chroma : Bool
  deriving DecidableEq, Repr

/-- Model of `ContextManager.__init__` with the vector store available or not. -/
def ContextManager.mk0 (has_chroma : Bool) : ContextManager :=
  { active_documents := [], total_tokens := 0, max_tokens_ram := 60000,
    has_chroma := has_chroma }

/-- The `while` loop of `ContextManager._prune_context`: drain oldest
entries while `total_tokens > max_tokens_ram * 0.9` (the comparison is
exact for integer totals, see the note on `0.9` below); entries without
content are popped and de-counted but not counted as pruned.  Returns
(remaining entries, new total, pruned count).

Note on `0.9`: `60000 * 0.9` evaluates to exactly `54000.0` in IEEE
doubles, so `total > max * 0.9` on integer totals coincides with
`10 * total > 9 * max`. -/
def pruneLoop (maxT : ℤ) : List CtxDoc → ℤ → List CtxDoc × ℤ × ℕ
  | [], total => ([], total, 0)
  | d :: rest, total =>
    if 10 * total > 9 * maxT then
      let r := pruneLoop maxT rest (total - d.tokens)
      (r.1, r.2.1, r.2.2 + (if d.content ≠ "" then 1 else 0))
    else (d :: rest, total, 0)

/-- Model of `ContextManager._prune_context`: a no-op (returning 0) when the
vector store is unavailable. -/
def ContextManager.prune_context (cm : ContextManager) : ContextManager × ℕ :=
  if !cm.has_chroma then (cm, 0)
  else
    let r := pruneLoop cm.max_tokens_ram cm.active_documents cm.total_tokens
    ({ cm with active_documents := r.1, total_tokens := r.2.1 }, r.2.2)

/-- Result dict of `ContextManager.add_document`; `rag_storage` is
present iff the document content was indexed into the vector store. -/
structure AddResult where
  active_docs : ℕ
  total_tokens : ℤ
  pruned : ℕ
  rag_storage : Option String
  deriving DecidableEq, Repr

/-- Model of `ContextManager.add_document`: append the entry, count its tokens,
index it when possible, and prune when the total exceeds the limit. -/
def ContextManager.add_document (cm : ContextManager) (doc : CtxDoc) :
    ContextManager × AddResult :=
  let cm1 : ContextManager :=
    { cm with active_documents := cm.active_documents ++ [doc],
              total_tokens := cm.total_tokens + doc.tokens }
  let rag_storage : Option String :=
    if cm.has_chroma && doc.content ≠ "" then some doc.name else none
  let pr := if cm1.total_tokens > cm1.max_tokens_ram then cm1.prune_context else (cm1, 0)
  (pr.1,
   { active_docs := pr.1.active_documents.length
     total_tokens := pr.1.total_tokens
     pruned := pr.2
     rag_storage := rag_storage })

/-- A candidate passage returned by the vector store query
(`content` plus the `title` metadata used for exclusion). -/
structure Passage where
  title : String
  content : String
  deriving DecidableEq, Repr

/-- Token estimate used by `retrieve_context`: `len(text) // 4`. -/
def estTok (text : String) : ℤ := (text.length : ℤ) / 4

/-- The retrieval descriptor of `ContextManager.retrieve_context`
(the query-preview fields are presentation-only and omitted). -/
structure RetrievalInfo where
  candidates_found : ℕ
  documents_retrieved : ℕ
  tokens_retrieved : ℤ
  tokens_limit : ℤ
  excluded_count : ℕ
  retrieved_document_names : List String
  deriving DecidableEq, Repr

/-- The candidate loop of `retrieve_context`: skip excluded titles
(counting them) and empty contents, stop for good at the first candidate
whose tokens would push the running total over `maxTok`, accept
otherwise.  Returns (accepted, final running total, excluded count). -/
def retrieveLoop (exclude : List String) (maxTok : ℤ) :
    List Passage → ℤ → ℕ → List Passage × ℤ × ℕ
  | [], cur, exc => ([], cur, exc)
  | p :: rest, cur, exc =>
    if pyLower p.title ∈ exclude then retrieveLoop exclude maxTok rest cur (exc + 1)
    else if p.content = "" then retrieveLoop exclude maxTok rest cur exc
    else if cur + estTok p.content > maxTok then ([], cur, exc)
    else
      let r := retrieveLoop exclude maxTok rest (cur + estTok p.content) exc
      (p :: r.1, r.2.1, r.2.2)

/-- Model of `ContextManager.retrieve_context`.  `results` models the ranked
candidates the vector store returned for the query. -/
def ContextManager.retrieve_context (cm : ContextManager) (results : List Passage)
    (maxTok : ℤ) (exclude : List String) : List Passage × RetrievalInfo :=
  if !cm.has_chroma then
    ([],
     { candidates_found := 0, documents_retrieved := 0, tokens_retrieved := 0,
       tokens_limit := maxTok, excluded_count := 0, retrieved_document_names := [] })
  else
    let r := retrieveLoop exclude maxTok results 0 0
    (r.1,
     { candidates_found := results.length
       documents_retrieved := r.1.length
       tokens_retrieved := r.2.1
       tokens_limit := maxTok
       excluded_count := r.2.2
       retrieved_document_names := r.1.map (fun p => p.title) })

/-- The ranked candidate list after the loop's two skip rules: neither
excluded by title nor empty of content (used to state the greedy-prefix
property of `retrieve_context`). -/
def filteredCandidates (exclude : List String) (results : List Passage) : List Passage :=
  results.filter (fun p => !(decide (pyLower p.title ∈ exclude)) && decide (p.content ≠ ""))

/-! ## Orchestrator (`services/orchestrator.py`)

The event stream of `SimulationOrchestrator.run_simulation` is modelled
as a list of `Event`s.  Payload fields that no claim observes (prompt
texts, performance figures, RAG descriptors, the document list carried
by `init`) are elided from the corresponding constructors.  External
nondeterminism — the psutil readings of each `calculate_memory` call,
the optional Ollama KV-cache telemetry, the outcome of each agent-step
body, of each two-pass-extraction call and of each vector-store query —
is supplied by an `Env` record, consumed through per-kind call
counters. -/

/-- A document dict as produced by `_get_document_list`. -/
structure Doc where
  name : String
  category : String
  content : String
  size_kb : ℚ
  deriving DecidableEq, Repr

/-- The typed event messages (`models/schemas.py`). -/
inductive Event where
  | status (message : String)
  | init (total : ℕ)
  | document (name : String) (index : ℕ) (total : ℕ) (category : String) (size_kb : ℚ)
  | documentStatus (index : ℕ) (docStatus : String)
  | memory (data : MemoryData)
  | performance
  | thought (text : String) (thStatus : String) (step_type : String)
      (author : String) (source : Option String)
  | metric (name : MetricName) (value : ℕ)
  | ragStorage
  | ragRetrieval
  | complete
  | crash (reason : String) (processed_documents : ℤ) (total_documents : ℕ)
      (memory_snapshot : MemoryData) (required_vram_gb : ℚ)
  deriving DecidableEq, Repr

/-- External inputs of one run, indexed by per-kind call counters. -/
structure Env where
  telem : ℕ → Telemetry
  kv : ℕ → Option ℚ
  llm : ℕ → Except String String
  fallbackLLM : ℕ → Except String String
  rag : ℕ → Except String (List Passage)

/-- The `Literal` of admissible `ThoughtData.status` values
(`models/schemas.py`, line 51).  Note that `"ERROR"` is absent. -/
def thoughtStatusLiterals : List String :=
  ["PROCESSING", "ACTIVE", "ANALYZING", "COMPLETE", "WARNING"]

/-- Constructing a `ThoughtData` payload validates `status` against the
`Literal` above: pydantic raises a `ValidationError` for any other
value, so building a thought event is fallible.  (The other payloads
the orchestrator constructs satisfy their schemas: the analysis steps
only use the admissible `status` value `"COMPLETE"` and the admissible
`step_type` values `"thought"`/`"observation"`, and
`DocumentStatusEvent.data` is an unvalidated `dict`.) -/
def mkThoughtEvent (text thStatus step_type author : String) (source : Option String) :
    Except String Event :=
  if thStatus ∈ thoughtStatusLiterals then
    .ok (Event.thought text thStatus step_type author source)
  else .error ("ValidationError: ThoughtData.status " ++ thStatus)

/-- Mutable orchestrator state threaded through the run
(`SimulationOrchestrator.__init__` attributes the claims observe). -/
structure OrchState where
  monitor : MemoryMonitor
  ctx : ContextManager
  metrics : MetricsState
  current_model : String
  use_ollama : Bool
  sgp_loaded : Bool
  aidaptiv_enabled : Bool
  tier : String
  tier_models_text : Option String
  tier_models_image : Option String
  nTel : ℕ
  nLLM : ℕ
  nFb : ℕ
  nRag : ℕ

/-- Model of `SimulationOrchestrator._get_model_for_category`:
`tier_models.get('image_analysis', 'llava:13b')` for images, otherwise
`tier_models.get('text_analysis', 'llama3.1:8b')`. -/
def modelForCategory (st : OrchState) (category : String) : String :=
  if category = "image" then st.tier_models_image.getD "llava:13b"
  else st.tier_models_text.getD "llama3.1:8b"

/-- One agent workflow step (`type`, `author`, optional `model`). -/
structure AgentStep where
  type : String
  author : String
  model : Option String
  deriving DecidableEq, Repr

/-- The `steps` lists built by `_run_agent_cycle`, one singleton list per
handled category; `none` models the `else: return` branch
(unknown categories, and `documentation` without `transcript` in the
name). -/
def stepsFor (category : String) (docName : String) (default_model : String) :
    Option (List AgentStep) :=
  if category = "dossier" then some [⟨"thought", "@Virtual_PMM", none⟩]
  else if category = "news" then some [⟨"thought", "@Virtual_PMM", none⟩]
  else if category = "documentation" && containsSub "transcript" (pyLower docName) then
    some [⟨"observation", "@Virtual_PMM", none⟩]
  else if category = "image" then some [⟨"observation", "@Visual_Intel", some default_model⟩]
  else if category = "social" then some [⟨"observation", "@Virtual_PMM", none⟩]
  else none

/-- Token estimate for the admitted document (`_run_agent_cycle`):
`len(doc_text) // 4` when content is present, else
`int(size_kb * 200)`. -/
def estDocTokens (d : Doc) : ℤ :=
  if d.content ≠ "" then (d.content.length : ℤ) / 4 else pyInt (d.size_kb * 200)

/-- The `batch_documents` slice of `_run_agent_cycle`: the documents at
indices `doc_index - (batch_size - 1) + i` of the processed list, for
`i < batch_size`, keeping only in-range indices. -/
def batchDocs (processed : List Doc) (batch_size doc_index : ℕ) : List Doc :=
  (List.range batch_size).filterMap (fun i =>
    let idx : ℤ := (doc_index : ℤ) - ((batch_size : ℤ) - 1) + i
    if 0 ≤ idx then processed.get? idx.toNat else none)

/-- First nonempty content among the batch documents, truncated to 500
characters: the retrieval `query_text`. -/
def ragQueryText : List Doc → String
  | [] => ""
  | d :: rest => if d.content ≠ "" then (d.content.take 500) else ragQueryText rest

/-- The `batch_ids` exclusion set: lowercased names of batch documents
that have content and a nonempty name. -/
def ragBatchIds (batch : List Doc) : List String :=
  (batch.filter (fun d => d.content ≠ "")).filterMap
    (fun d => if d.name ≠ "" then some (pyLower d.name) else none)

/-- The RAG-retrieval section of `_run_agent_cycle` (the `try` around
`retrieve_context`): a failed vector-store query is swallowed; a
`rag_retrieval` event is emitted iff documents were retrieved. -/
def cycleRag (st : OrchState) (env : Env) (batch_documents : List Doc) :
    OrchState × List Event :=
  if batch_documents ≠ [] && st.ctx.has_chroma then
    let query_text := ragQueryText batch_documents
    if query_text ≠ "" then
      match env.rag st.nRag with
      | .error _ => ({ st with nRag := st.nRag + 1 }, [])
      | .ok results =>
        let r := st.ctx.retrieve_context results 3000 (ragBatchIds batch_documents)
        ({ st with nRag := st.nRag + 1 },
         if r.1 ≠ [] then [Event.ragRetrieval] else [])
    else (st, [])
  else (st, [])

/-- The `document_status(vram)` events marking the batch analyzed. -/
def vramEvents (batch_size doc_index : ℕ) : List Event :=
  (List.range batch_size).filterMap (fun i =>
    let c : ℤ := (doc_index : ℤ) - ((batch_size : ℤ) - 1) + i
    if 0 ≤ c ∧ c ≤ (doc_index : ℤ) then some (Event.documentStatus c.toNat "vram")
    else none)

/-- One iteration of the `for step in steps` loop of `_run_agent_cycle`,
whole body inside `try/except`: a model swap emits a status plus a
memory event; the step body either yields one completed text — producing
the thought and performance events, metric extraction (with the two-pass
fallback when the primary extraction is empty and the step used a vision
model or is an observation), the metric events and the vram statuses —
or raises.  A raised exception reaches the `except` handler (lines
803-813), which itself constructs `ThoughtData(status="ERROR")`; since
`"ERROR"` is not among the admissible `status` Literal values, that
construction raises a pydantic `ValidationError` which nothing catches,
so the step's exception is replaced by an escaping validation error
(third component) rather than converted into an ERROR thought event. -/
def runStep (env : Env) (default_model category : String) (current_doc : Doc)
    (batch_size doc_index : ℕ) (st : OrchState) (step : AgentStep) :
    OrchState × List Event × Option String :=
  let step_model := step.model.getD default_model
  let sw : OrchState × List Event :=
    if step_model ≠ st.current_model then
      ({ st with current_model := step_model,
                 monitor := st.monitor.set_model_size step_model,
                 nTel := st.nTel + 1 },
       [Event.status ("Swapping Model: " ++ st.current_model ++ " -> " ++ step_model ++ "..."),
        Event.memory (((st.monitor.set_model_size step_model).calculate_memory
          (env.telem st.nTel) (env.kv st.nTel)).1)])
    else (st, [])
  match env.llm sw.1.nLLM with
  | .error e =>
    match mkThoughtEvent ("[Analysis Error: " ++ e ++ "]") "ERROR" step.type step.author none with
    | .ok ev => ({ sw.1 with nLLM := sw.1.nLLM + 1 }, sw.2 ++ [ev], none)
    | .error ve => ({ sw.1 with nLLM := sw.1.nLLM + 1 }, sw.2, some ve)
  | .ok thought_text =>
    let st2 : OrchState := { sw.1 with nLLM := sw.1.nLLM + 1 }
    match mkThoughtEvent thought_text "COMPLETE" step.type step.author
        (some current_doc.name) with
    | .error ve => (st2, sw.2, some ve)
    | .ok ev =>
      let r := extract_metrics st2.metrics thought_text
      let fb : OrchState × List MetricEvt :=
        if r.2 = [] &&
            (startsWithStr "llava" (step.model.getD "") || containsSub "observation" step.type) then
          match env.fallbackLLM st2.nFb with
          | .error _ => ({ st2 with metrics := r.1, nFb := st2.nFb + 1 }, ([] : List MetricEvt))
          | .ok t2 =>
            ({ st2 with metrics := (extract_metrics r.1 t2).1, nFb := st2.nFb + 1 },
             (extract_metrics r.1 t2).2)
        else ({ st2 with metrics := r.1 }, r.2)
      (fb.1,
       sw.2 ++ [ev, Event.performance] ++
         fb.2.map (fun e => Event.metric e.1 e.2) ++ vramEvents batch_size doc_index,
       none)

/-- Fold of `runStep` over the step list; an exception escaping a step
aborts the `for` loop, the events already yielded having been
delivered. -/
def runSteps (env : Env) (default_model category : String) (current_doc : Doc)
    (batch_size doc_index : ℕ) (st : OrchState) :
    List AgentStep → OrchState × List Event × Option String
  | [] => (st, [], none)
  | s :: rest =>
    let r := runStep env default_model category current_doc batch_size doc_index st s
    match r.2.2 with
    | some e => (r.1, r.2.1, some e)
    | none =>
      let r' := runSteps env default_model category current_doc batch_size doc_index r.1 rest
      (r'.1, r.2.1 ++ r'.2.1, r'.2.2)

/-- Model of `SimulationOrchestrator._run_agent_cycle`.  Returns the updated
state, the emitted events, and `some message` when the cycle raised an
exception that nothing in `run_simulation` catches: the missing-SGP
`RuntimeError` (line 438, outside the per-step `try`), or the pydantic
`ValidationError` the per-step `except` handler itself raises when a
step fails. -/
def runAgentCycle (st : OrchState) (env : Env) (processed : List Doc)
    (category : String) (current_doc : Doc) (batch_size doc_index : ℕ) :
    OrchState × List Event × Option String :=
  if !st.use_ollama then (st, [], none)
  else if !st.sgp_loaded then
    (st, [], some "Semantic Grounding Profile is required but not loaded")
  else
    let default_model := modelForCategory st category
    match stepsFor category current_doc.name default_model with
    | none => (st, [], none)
    | some steps =>
      let r := st.ctx.add_document
        ⟨current_doc.name, current_doc.content, estDocTokens current_doc⟩
      let st1 : OrchState :=
        { st with ctx := r.1, monitor := st.monitor.set_context_size r.1.total_tokens }
      let evsA := match r.2.rag_storage with
        | some _ => [Event.ragStorage]
        | none => []
      let rg := cycleRag st1 env (batchDocs processed batch_size doc_index)
      let sr := runSteps env default_model category current_doc batch_size doc_index rg.1 steps
      (sr.1, evsA ++ rg.2 ++ sr.2.1, sr.2.2)

/-- The batch-boundary test of `run_simulation` (step 5 of the loop),
with `docsInBatch` already incremented for the current document. -/
def batchCloses (d : Doc) (next : Option Doc) (docsInBatch : ℕ) : Bool :=
  match next with
  | none => true
  | some nd =>
    if d.category ≠ nd.category then true
    else if d.category = "image" then true
    else if d.category = "documentation" && containsSub "transcript" (pyLower d.name) then true
    else if docsInBatch ≥ 4 then true
    else false

/-- The category-transition status messages (lines 290-309). -/
def transitionEvents (prevCat : Option String) (d : Doc) : List Event :=
  match prevCat with
  | none =>
    if d.category = "image" then [.status "Loading image data for visual analysis..."]
    else if d.category = "dossier" then [.status "Loading Strategic Dossiers..."]
    else if d.category = "news" then [.status "Ingesting CES News Feed..."]
    else []
  | some pc =>
    if d.category ≠ pc then
      if d.category = "image" then [.status "Loading image data for visual analysis..."]
      else if d.category = "dossier" then [.status "Loading Strategic Dossiers..."]
      else if d.category = "news" then [.status "Ingesting CES News Feed..."]
      else if d.category = "social" then [.status "Monitoring Social Channels..."]
      else if d.category = "documentation" && containsSub "transcript" (pyLower d.name) then
        [.status "Processing Video Transcripts..."]
      else []
    else []

/-- Model of `SimulationOrchestrator._create_crash_event`: the document counts
are derived from the progress percentage and a hardcoded tier-based
total (268 for the "large" tier, 18 otherwise). -/
def createCrashEvent (tier : String) (memory_data : MemoryData) (progress : ℚ)
    (reason : String) : Event :=
  let total_docs : ℕ := if tier = "large" then 268 else 18
  let processed_docs : ℤ := pyInt ((total_docs : ℚ) * (progress / 100))
  Event.crash reason processed_docs total_docs memory_data 48

/-- Model of `_wait_with_telemetry(interval)` with `interval = duration / total`:
emits `int(interval / 0.2)` memory telemetry events (none when the
interval is under one step).  The division is modelled exactly as
`5 * duration / total`. -/
def waitTelemetry (st : OrchState) (env : Env) (total duration : ℕ) :
    OrchState × List Event :=
  let steps := 5 * duration / total
  if steps < 1 then (st, [])
  else
    ({ st with nTel := st.nTel + steps },
     (List.range steps).map (fun k =>
       Event.memory
         ((st.monitor.calculate_memory (env.telem (st.nTel + k)) (env.kv (st.nTel + k))).1)))

/-- Result of a run: the emitted events, the (category, batch size) of
each triggered Agent Cycle (ghost instrumentation used to state the
batching claims), the message of an uncaught exception if one escaped,
and the final state. -/
structure RunResult where
  events : List Event
  cycles : List (String × ℕ)
  err : Option String
  final : OrchState

/-- The per-document loop of `run_simulation` (lines 284-399) over the
remaining documents, carrying the current index, the running
`docs_in_current_batch` counter and the previous document's category.
On exhaustion the terminal `status` event is emitted. -/
def runLoop (env : Env) (docsAll : List Doc) (total duration : ℕ) :
    List Doc → ℕ → ℕ → Option String → OrchState → RunResult
  | [], _, _, _, st => ⟨[.status "Analysis Finalized"], [], none, st⟩
  | d :: rest, i, batch, prevCat, st =>
    let evs1 := transitionEvents prevCat d
    let progress : ℚ := (((i : ℚ) + 1) / (total : ℚ)) * 100
    let cm := st.monitor.calculate_memory (env.telem st.nTel) (env.kv st.nTel)
    let st1 : OrchState := { st with nTel := st.nTel + 1 }
    let pre := evs1 ++
      [Event.document d.name i total d.category d.size_kb,
       Event.documentStatus i "processing",
       Event.memory cm.1] ++
      (if st1.use_ollama then [] else [Event.performance])
    if cm.2 && !st1.aidaptiv_enabled then
      ⟨pre ++ [createCrashEvent st1.tier cm.1 progress
        "Out of unified memory - aiDAPTIV+ required for this workload"], [], none, st1⟩
    else
      let batch1 := batch + 1
      if batchCloses d rest.head? batch1 then
        let evs5 := [Event.status ("Analyzing " ++ d.category ++ " data...")]
        let c := runAgentCycle st1 env (docsAll.take (i + 1)) d.category d batch1 i
        match c.2.2 with
        | some e => ⟨pre ++ evs5 ++ c.2.1, [(d.category, batch1)], some e, c.1⟩
        | none =>
          let r := runLoop env docsAll total duration rest (i + 1) 0 (some d.category) c.1
          ⟨pre ++ evs5 ++ c.2.1 ++ r.events, (d.category, batch1) :: r.cycles, r.err, r.final⟩
      else
        let w := waitTelemetry st1 env total duration
        let r := runLoop env docsAll total duration rest (i + 1) batch1 (some d.category) w.1
        ⟨pre ++ w.2 ++ r.events, r.cycles, r.err, r.final⟩

/-- The state resets at the top of `run_simulation` (lines 249-260). -/
def resetForRun (st : OrchState) : OrchState :=
  { st with monitor := st.monitor.set_context_size 0,
            ctx := { st.ctx with total_tokens := 0, active_documents := [] } }

/-- Model of `SimulationOrchestrator.run_simulation`: startup status events, the
`init` event, then the per-document loop.  With an empty document list
and a positive configured total, `documents[0]` raises an uncaught
`IndexError` (modelled as `err`). -/
def run_simulation (st : OrchState) (env : Env) (docs : List Doc)
    (cfg_total duration : ℕ) : RunResult :=
  let pre := [Event.status ("Loading " ++ st.tier ++ " tier documents...")] ++
    (if st.use_ollama then [Event.status "Preparing AI model for analysis..."] else []) ++
    [Event.status "Starting document processing..."]
  let st0 := resetForRun st
  let total := if docs.length > 0 then docs.length else cfg_total
  if docs.isEmpty then
    if total > 0 then ⟨pre ++ [Event.init total], [], some "IndexError", st0⟩
    else ⟨pre ++ [Event.init total, Event.status "Analysis Finalized"], [], none, st0⟩
  else
    let r := runLoop env docs total duration docs 0 0 none st0
    ⟨pre ++ [Event.init total] ++ r.events, r.cycles, r.err, r.final⟩

/-- Crash-event discriminant. -/
def Event.isCrash : Event → Bool
  | .crash _ _ _ _ _ => true
  | _ => false

/-- Discriminant for a thought event carrying the ERROR status. -/
def Event.isErrorThought : Event → Bool
  | .thought _ s _ _ _ => s == "ERROR"
  | _ => false

/-! ## Concrete fixtures used by counterexamples and witnesses -/

/-- A quiet telemetry reading: 16 GB RAM half used, no swap. -/
def telemQuiet : Telemetry := ⟨0, 17179869184, 50, 0, 0⟩

/-- A reading with 3 GB of swap in use (2 GB over a zero baseline). -/
def telemHigh : Telemetry := ⟨0, 17179869184, 50, 3 * 1024 ^ 3, 10⟩

/-- An environment in which nothing crashes and every model call
yields a plain text. -/
def envQuiet : Env :=
  { telem := fun _ => telemQuiet, kv := fun _ => none,
    llm := fun _ => .ok "x", fallbackLLM := fun _ => .ok "x",
    rag := fun _ => .ok [] }

/-- Variant of `envQuiet` with high swap telemetry on every reading. -/
def envHigh : Env := { envQuiet with telem := fun _ => telemHigh }

/-- Variant of `envQuiet` whose model calls all raise. -/
def envLLMFail : Env := { envQuiet with llm := fun _ => .error "boom" }

/-- An orchestrator state as built by the constructor under the given
flags: fresh monitor (zero baseline), no vector store, fresh metrics,
standard tier. -/
def mkOrch (uo sgp aid : Bool) : OrchState :=
  { monitor := MemoryMonitor.init aid telemQuiet
    ctx := ContextManager.mk0 false
    metrics := MetricsState.init
    current_model := "llama3.1:8b"
    use_ollama := uo, sgp_loaded := sgp, aidaptiv_enabled := aid
    tier := "standard"
    tier_models_text := some "llama3.1:8b", tier_models_image := some "llava:13b"
    nTel := 0, nLLM := 0, nFb := 0, nRag := 0 }

/-- A one-kilobyte news document with one-character content. -/
def newsDoc (n : String) : Doc := ⟨n, "news", "x", 1⟩

/-- Five consecutive documents of the same (batched) category. -/
def docs5 : List Doc :=
  [newsDoc "n1", newsDoc "n2", newsDoc "n3", newsDoc "n4", newsDoc "n5"]

/-- The memory snapshot taken at the crash check of the `envHigh` run. -/
def c8snap : MemoryData :=
  { unified_percent := 50, unified_gb := 0, unified_total_gb := 16,
    virtual_percent := 10, virtual_gb := 3, virtual_active := true,
    context_tokens := 0, kv_cache_gb := 0, model_weights_gb := 5,
    loaded_model := "llama3.1:8b" }

/-!
# Theorems

## Generic lemmas about `chain`
-/

theorem chain_pres {f : σ → α → σ × List β} (P : σ → Prop)
    (hf : ∀ s a, P s → P (f s a).1) :
    ∀ (as : List α) (s : σ), P s → P (chain f s as).1 := by
  intro as
  induction as with
  | nil => intro s hs; simpa [chain] using hs
  | cons a as ih =>
    intro s hs
    simpa [chain] using ih (f s a).1 (hf s a hs)

theorem chain_range {f : σ → α → σ × List β} (cnt : σ → ℕ) (val : β → Option ℕ)
    (hf : ∀ s a, cnt s ≤ cnt (f s a).1 ∧
      (f s a).2.filterMap val = List.range' (cnt s + 1) (cnt (f s a).1 - cnt s)) :
    ∀ (as : List α) (s : σ), cnt s ≤ cnt (chain f s as).1 ∧
      (chain f s as).2.filterMap val =
        List.range' (cnt s + 1) (cnt (chain f s as).1 - cnt s) := by
  intro as
  induction as with
  | nil => intro s; simp [chain]
  | cons a as ih =>
    intro s
    have h1 := hf s a
    have h2 := ih (f s a).1
    refine ⟨le_trans h1.1 h2.1, ?_⟩
    have hsum : cnt (chain f (f s a).1 as).1 - cnt s =
        (cnt (chain f (f s a).1 as).1 - cnt (f s a).1) + (cnt (f s a).1 - cnt s) := by
      omega
    have hstart : cnt (f s a).1 + 1 = (cnt s + 1) + (cnt (f s a).1 - cnt s) := by
      omega
    simp only [chain, List.filterMap_append, h1.2, h2.2, hsum, hstart]
    exact List.range'_append_1 _ _ _

/-! ## Metric extractor: dedup and counter lemmas (C1, C10) -/

/-- The intended relation between the counters and the dedup sets:
each counter equals the size of its (duplicate-free) seen set. -/
def MetricsInv (st : MetricsState) : Prop :=
  ∀ n, st.counter n = (st.seen n).length ∧ (st.seen n).Nodup

theorem metricsInv_init : MetricsInv MetricsState.init := by
  intro n; simp [MetricsState.init]

theorem processValue_inv (st : MetricsState) (m : MetricName) (v : String)
    (h : MetricsInv st) : MetricsInv (processValue st m v).1 := by
  intro n
  by_cases hv : v ∈ st.seen m
  · simpa [processValue, hv] using h n
  · rcases h n with ⟨hc, hn⟩
    by_cases hnm : n = m
    · subst hnm
      refine ⟨?_, ?_⟩
      · simp [processValue, hv, hc]
      · simp only [processValue, hv, if_neg, if_pos rfl]
        simpa [List.nodup_cons] using ⟨hv, hn⟩
    · simpa [processValue, hv, hnm] using ⟨hc, hn⟩

theorem processValue_range (st : MetricsState) (m : MetricName) (v : String)
    (n : MetricName) :
    st.counter n ≤ (processValue st m v).1.counter n ∧
      (processValue st m v).2.filterMap (fun e => if e.1 = n then some e.2 else none) =
        List.range' (st.counter n + 1) ((processValue st m v).1.counter n - st.counter n) := by
  by_cases hv : v ∈ st.seen m
  · simp [processValue, hv]
  · by_cases hnm : n = m
    · subst hnm
      simp [processValue, hv]
    · have hmn : ¬m = n := fun h => hnm h.symm
      simp [processValue, hv, hnm, hmn]

theorem processValues_inv (m : MetricName) (vals : List String) (st : MetricsState)
    (h : MetricsInv st) : MetricsInv (processValues m st vals).1 :=
  chain_pres MetricsInv (fun s v hs => processValue_inv s m (pyStrip v) hs) vals st h

theorem processValues_range (m : MetricName) (vals : List String) (st : MetricsState)
    (n : MetricName) :
    st.counter n ≤ (processValues m st vals).1.counter n ∧
      (processValues m st vals).2.filterMap (fun e => if e.1 = n then some e.2 else none) =
        List.range' (st.counter n + 1) ((processValues m st vals).1.counter n - st.counter n) :=
  chain_range (fun s => s.counter n) _
    (fun s v => processValue_range s m (pyStrip v) n) vals st

theorem extract_metrics_inv (st : MetricsState) (text : String)
    (h : MetricsInv st) : MetricsInv (extract_metrics st text).1 :=
  chain_pres MetricsInv (fun s mm hs => processValues_inv mm (tagMatches (tagOf mm) text) s hs)
    metricNames st h

theorem extract_metrics_range (st : MetricsState) (text : String) (n : MetricName) :
    st.counter n ≤ (extract_metrics st text).1.counter n ∧
      (extract_metrics st text).2.filterMap (fun e => if e.1 = n then some e.2 else none) =
        List.range' (st.counter n + 1) ((extract_metrics st text).1.counter n - st.counter n) :=
  chain_range (fun s => s.counter n) _
    (fun s mm => processValues_range mm (tagMatches (tagOf mm) text) s n) metricNames st

theorem extractRun_inv (st : MetricsState) (texts : List String)
    (h : MetricsInv st) : MetricsInv (extractRun st texts).1 :=
  chain_pres MetricsInv (fun s t hs => extract_metrics_inv s t hs) texts st h

theorem extractRun_range (st : MetricsState) (texts : List String) (n : MetricName) :
    st.counter n ≤ (extractRun st texts).1.counter n ∧
      (extractRun st texts).2.filterMap (fun e => if e.1 = n then some e.2 else none) =
        List.range' (st.counter n + 1) ((extractRun st texts).1.counter n - st.counter n) :=
  chain_range (fun s => s.counter n) _
    (fun s t => extract_metrics_range s t n) texts st

theorem processValue_seen (st : MetricsState) (m : MetricName) (v : String)
    (n : MetricName) (w : String) :
    w ∈ (processValue st m v).1.seen n ↔ w ∈ st.seen n ∨ (n = m ∧ w = v) := by
  by_cases hv : v ∈ st.seen m
  · simp only [processValue, if_pos hv]
    constructor
    · exact fun h => Or.inl h
    · rintro (h | ⟨rfl, rfl⟩)
      · exact h
      · exact hv
  · by_cases hnm : n = m
    · subst hnm
      simp only [processValue, if_neg hv]
      simp [List.mem_cons]
      tauto
    · simp [processValue, hv, hnm]

theorem processValues_seen (m : MetricName) (vals : List String) :
    ∀ (st : MetricsState) (n : MetricName) (w : String),
      w ∈ (processValues m st vals).1.seen n ↔
        w ∈ st.seen n ∨ (n = m ∧ w ∈ vals.map pyStrip) := by
  induction vals with
  | nil => intro st n w; simp [processValues, chain]
  | cons v vs ih =>
    intro st n w
    have h1 : (processValues m st (v :: vs)).1 =
        (processValues m (processValue st m (pyStrip v)).1 vs).1 := by
      simp [processValues, chain]
    rw [h1, ih, processValue_seen]
    simp only [List.map_cons, List.mem_cons]
    tauto

theorem extract_metrics_seen (st : MetricsState) (text : String) (n : MetricName)
    (w : String) :
    w ∈ (extract_metrics st text).1.seen n ↔
      w ∈ st.seen n ∨ w ∈ (tagMatches (tagOf n) text).map pyStrip := by
  have h1 : (extract_metrics st text).1 =
      (processValues .critical_flags
        (processValues .insights_generated
          (processValues .patterns_detected
            (processValues .key_topics st (tagMatches (tagOf .key_topics) text)).1
            (tagMatches (tagOf .patterns_detected) text)).1
          (tagMatches (tagOf .insights_generated) text)).1
        (tagMatches (tagOf .critical_flags) text)).1 := by
    simp [extract_metrics, metricNames, chain]
  rw [h1, processValues_seen, processValues_seen, processValues_seen, processValues_seen]
  cases n <;> simp

theorem strippedValues_cons (n : MetricName) (t : String) (ts : List String) :
    strippedValues n (t :: ts) =
      (tagMatches (tagOf n) t).map pyStrip ++ strippedValues n ts := by
  simp [strippedValues]

theorem extractRun_seen (texts : List String) :
    ∀ (st : MetricsState) (n : MetricName) (w : String),
      w ∈ (extractRun st texts).1.seen n ↔
        w ∈ st.seen n ∨ w ∈ strippedValues n texts := by
  induction texts with
  | nil => intro st n w; simp [extractRun, chain, strippedValues]
  | cons t ts ih =>
    intro st n w
    have h1 : (extractRun st (t :: ts)).1 = (extractRun (extract_metrics st t).1 ts).1 := by
      simp [extractRun, chain]
    rw [h1, ih, extract_metrics_seen, strippedValues_cons]
    simp only [List.mem_append]
    tauto

/-- C1 (counterexample): the extractor's dedup compares values only
after whitespace stripping, not case folding.  On the single text
`"[TOPIC: Acme] [TOPIC: acme]"` the two tag values are equal after
case- and whitespace-normalization, yet the extractor emits two
`key_topics` events — the second mention increments the counter
again, contradicting the claim as stated. -/
theorem C1_counterexample :
    (extract_metrics MetricsState.init "[TOPIC: Acme] [TOPIC: acme]").2 =
      [(MetricName.key_topics, 1), (MetricName.key_topics, 2)] ∧
    pyLower (pyStrip "Acme") = pyLower (pyStrip "acme") := by
  constructor
  · rfl
  · rfl

/-- C1 (amended): for every run and every metric kind, each distinct
tag value compared after whitespace normalization only (Python
`str.strip()`; the comparison is case-sensitive) increments that
metric's counter at most once over the whole run: across any sequence
of extraction calls from a fresh run state, the number of events
emitted for a metric equals the number of distinct stripped values
scanned for it, so a repeated (strip-equal) mention produces no
further metric event. -/
theorem C1_dedup_after_strip (texts : List String) (m : MetricName) :
    (mValues m (extractRun MetricsState.init texts).2).length =
      (strippedValues m texts).toFinset.card := by
  have h := extractRun_range MetricsState.init texts m
  have hinv := extractRun_inv MetricsState.init texts metricsInv_init
  have hlen : (mValues m (extractRun MetricsState.init texts).2).length =
      (extractRun MetricsState.init texts).1.counter m := by
    rw [mValues, h.2]
    simp [MetricsState.init]
  rw [hlen, (hinv m).1, ← List.toFinset_card_of_nodup (hinv m).2]
  congr 1
  ext w
  rw [List.mem_toFinset, List.mem_toFinset, extractRun_seen texts MetricsState.init m w]
  simp [MetricsState.init]

/-- C10: every emitted `metric` event's value equals the size of the
per-metric set of distinct seen values at emission: for each metric
name the sequence of values emitted during one run (any sequence of
extraction calls from a fresh state) is exactly `1, 2, 3, …` — strictly
increasing by one per event starting at 1 — and the final counter
equals the size of the (duplicate-free) seen set throughout. -/
theorem C10_metric_values_consecutive (texts : List String) (m : MetricName) :
    mValues m (extractRun MetricsState.init texts).2 =
      List.range' 1 ((extractRun MetricsState.init texts).1.counter m) ∧
    (extractRun MetricsState.init texts).1.counter m =
      ((extractRun MetricsState.init texts).1.seen m).length := by
  have h := extractRun_range MetricsState.init texts m
  have hinv := extractRun_inv MetricsState.init texts metricsInv_init
  refine ⟨?_, (hinv m).1⟩
  rw [mValues, h.2]
  simp [MetricsState.init]

/-! ## Memory monitor: crash predicate (C2) -/

/-- C2: at every snapshot, `should_crash` is true iff the aiDAPTIV+
flag is off and the current swap usage in GB exceeds the baseline swap
usage captured at construction by more than the fixed 2.0 GB threshold;
in particular a monitor constructed at some swap level never crashes
while the swap reading stays at that level, whatever the pre-existing
usage was. -/
theorem C2_should_crash_iff (m : MemoryMonitor) (t : Telemetry) (kv : Option ℚ)
    (flag : Bool) (t0 : Telemetry) :
    ((m.calculate_memory t kv).2 = true ↔
      (m.aidaptiv_enabled = false ∧
        t.swap_used_bytes / (1024 ^ 3 : ℚ) - m.baseline_swap_gb > 2)) ∧
    (t.swap_used_bytes = t0.swap_used_bytes →
      ((MemoryMonitor.init flag t0).calculate_memory t kv).2 = false) := by
  constructor
  · simp [MemoryMonitor.calculate_memory, Bool.and_eq_true, Bool.not_eq_true',
      decide_eq_true_eq]
  · intro h
    simp only [MemoryMonitor.calculate_memory, MemoryMonitor.init, h]
    have : t0.swap_used_bytes / (1024 ^ 3 : ℚ) - t0.swap_used_bytes / (1024 ^ 3 : ℚ) = 0 := by
      ring
    rw [this]
    norm_num

/-- Witness for C2 at a concrete monitor and reading. -/
theorem C2_should_crash_iff_witness :
    (⟨0, 0, 0, 5 * 1024 ^ 3, 0⟩ : Telemetry).swap_used_bytes =
      (⟨1, 2, 3, 5 * 1024 ^ 3, 4⟩ : Telemetry).swap_used_bytes ∧
    ((MemoryMonitor.init false ⟨1, 2, 3, 5 * 1024 ^ 3, 4⟩).calculate_memory
      ⟨0, 0, 0, 5 * 1024 ^ 3, 0⟩ none).2 = false :=
  ⟨rfl,
   (C2_should_crash_iff (MemoryMonitor.init false ⟨1, 2, 3, 5 * 1024 ^ 3, 4⟩)
      ⟨0, 0, 0, 5 * 1024 ^ 3, 0⟩ none false ⟨1, 2, 3, 5 * 1024 ^ 3, 4⟩).2 rfl⟩

/-! ## Context store: admission bound (C3) -/

theorem pruneLoop_inv (maxT : ℤ) (hmax : 0 ≤ maxT) :
    ∀ (docs : List CtxDoc) (total : ℤ),
      total = (docs.map (fun d => d.tokens)).sum →
      (pruneLoop maxT docs total).2.1 =
        (((pruneLoop maxT docs total).1.map (fun d => d.tokens)).sum) ∧
      10 * (pruneLoop maxT docs total).2.1 ≤ 9 * maxT := by
  intro docs
  induction docs with
  | nil =>
    intro total h
    simp only [List.map_nil, List.sum_nil] at h
    subst h
    constructor
    · rfl
    · show (10 : ℤ) * 0 ≤ 9 * maxT
      omega
  | cons d rest ih =>
    intro total h
    simp only [List.map_cons, List.sum_cons] at h
    by_cases hc : 10 * total > 9 * maxT
    · have hrec := ih (total - d.tokens) (by omega)
      simp only [pruneLoop, if_pos hc]
      exact hrec
    · simp only [pruneLoop, if_neg hc, List.map_cons, List.sum_cons]
      exact ⟨h, by omega⟩

/-- The concrete state reached by admitting two 40000-token documents
into a store without a vector-store client. -/
def c3cexStore : ContextManager :=
  (((ContextManager.mk0 false).add_document ⟨"a", "x", 40000⟩).1.add_document
    ⟨"b", "x", 40000⟩).1

/-- C3 (counterexample): without the vector store, `_prune_context`
returns without evicting anything, so after an admit-plus-eviction-check
cycle the store holds 80000 > 60000 tokens even though no single entry
exceeds the 60000-token limit — refuting the claimed bound. -/
theorem C3_counterexample :
    c3cexStore.total_tokens = 80000 ∧
    c3cexStore.max_tokens_ram = 60000 ∧
    c3cexStore.total_tokens > c3cexStore.max_tokens_ram ∧
    ∀ d ∈ c3cexStore.active_documents, d.tokens ≤ c3cexStore.max_tokens_ram := by
  refine ⟨rfl, rfl, by decide, ?_⟩
  decide

/-- C3 (amended): provided the vector-store client is available and the
token-sum invariant holds, after any `add_document` (which runs the
eviction check) the store satisfies
`total_tokens ≤ max_tokens_ram` — even when a single entry alone exceeds
the limit, since eviction also drains such an entry — and whenever
eviction was triggered it drains oldest-first until
`total_tokens ≤ 0.9 × max_tokens_ram`.  Without the vector-store client
no eviction happens at all (see the counterexample). -/
theorem C3_bound_with_chroma (cm : ContextManager) (doc : CtxDoc)
    (hC : cm.has_chroma = true) (hMax : cm.max_tokens_ram = 60000)
    (hInv : cm.total_tokens = (cm.active_documents.map (fun d => d.tokens)).sum) :
    (cm.add_document doc).1.total_tokens ≤ (cm.add_document doc).1.max_tokens_ram ∧
    (cm.add_document doc).1.total_tokens =
      (((cm.add_document doc).1.active_documents.map (fun d => d.tokens)).sum) ∧
    (cm.total_tokens + doc.tokens > cm.max_tokens_ram →
      10 * (cm.add_document doc).1.total_tokens ≤
        9 * (cm.add_document doc).1.max_tokens_ram) := by
  have hsum : cm.total_tokens + doc.tokens =
      (((cm.active_documents ++ [doc]).map (fun d => d.tokens)).sum) := by
    rw [List.map_append, List.sum_append]
    simp [hInv]
  by_cases htrig : cm.total_tokens + doc.tokens > cm.max_tokens_ram
  · have hp := pruneLoop_inv cm.max_tokens_ram (by omega)
      (cm.active_documents ++ [doc]) (cm.total_tokens + doc.tokens) hsum
    simp only [ContextManager.add_document, ContextManager.prune_context, hC,
      Bool.not_true, Bool.false_eq_true, if_false, if_pos htrig]
    refine ⟨by omega, hp.1, fun _ => hp.2⟩
  · simp only [ContextManager.add_document, ContextManager.prune_context, hC,
      Bool.not_true, Bool.false_eq_true, if_false, if_neg htrig]
    exact ⟨by omega, hsum, fun h => absurd h htrig⟩

/-- Witness for C3 (amended) at a concrete store and document. -/
theorem C3_bound_with_chroma_witness :
    (ContextManager.mk0 true).has_chroma = true ∧
    (ContextManager.mk0 true).max_tokens_ram = 60000 ∧
    (ContextManager.mk0 true).total_tokens =
      (((ContextManager.mk0 true).active_documents.map (fun d => d.tokens)).sum) ∧
    (((ContextManager.mk0 true).add_document ⟨"big", "x", 70000⟩).1.total_tokens ≤
      ((ContextManager.mk0 true).add_document ⟨"big", "x", 70000⟩).1.max_tokens_ram ∧
    ((ContextManager.mk0 true).add_document ⟨"big", "x", 70000⟩).1.total_tokens =
      ((((ContextManager.mk0 true).add_document ⟨"big", "x", 70000⟩).1.active_documents.map
        (fun d => d.tokens)).sum) ∧
    ((ContextManager.mk0 true).total_tokens + (70000 : ℤ) >
        (ContextManager.mk0 true).max_tokens_ram →
      10 * ((ContextManager.mk0 true).add_document ⟨"big", "x", 70000⟩).1.total_tokens ≤
        9 * ((ContextManager.mk0 true).add_document ⟨"big", "x", 70000⟩).1.max_tokens_ram)) :=
  ⟨rfl, rfl, rfl,
   C3_bound_with_chroma (ContextManager.mk0 true) ⟨"big", "x", 70000⟩ rfl rfl rfl⟩

/-! ## Retrieval: token budget and greedy prefix (C4, C9) -/

theorem retrieveLoop_tokens (exclude : List String) (maxTok : ℤ) :
    ∀ (results : List Passage) (cur : ℤ) (exc : ℕ),
      (retrieveLoop exclude maxTok results cur exc).2.1 =
        cur + (((retrieveLoop exclude maxTok results cur exc).1.map
          (fun p => estTok p.content)).sum) ∧
      (cur ≤ maxTok → (retrieveLoop exclude maxTok results cur exc).2.1 ≤ maxTok) := by
  intro results
  induction results with
  | nil => intro cur exc; simp [retrieveLoop]
  | cons p rest ih =>
    intro cur exc
    by_cases h1 : pyLower p.title ∈ exclude
    · simpa [retrieveLoop, h1] using ih cur (exc + 1)
    · by_cases h2 : p.content = ""
      · simpa [retrieveLoop, h1, h2] using ih cur exc
      · by_cases h3 : cur + estTok p.content > maxTok
        · simp [retrieveLoop, h1, h2, h3]
        · have hrec := ih (cur + estTok p.content) exc
          simp only [retrieveLoop, if_neg h1, if_neg h2, if_neg h3, List.map_cons,
            List.sum_cons]
          refine ⟨by rw [hrec.1]; ring, fun _ => hrec.2 (by omega)⟩

/-- C4: for every `retrieve_context` call with a nonnegative token
budget (the orchestrator and the default both pass positive budgets),
the sum over the returned passages of the estimated token count
`len(text) // 4` is at most `max_tokens`, and the returned descriptor's
`tokens_retrieved` field equals that sum. -/
theorem C4_token_budget (cm : ContextManager) (results : List Passage)
    (maxTok : ℤ) (exclude : List String) (h : 0 ≤ maxTok) :
    (((cm.retrieve_context results maxTok exclude).1.map
        (fun p => estTok p.content)).sum ≤ maxTok) ∧
    (cm.retrieve_context results maxTok exclude).2.tokens_retrieved =
      (((cm.retrieve_context results maxTok exclude).1.map
        (fun p => estTok p.content)).sum) := by
  by_cases hc : cm.has_chroma
  · have hl := retrieveLoop_tokens exclude maxTok results 0 0
    simp only [ContextManager.retrieve_context, hc, Bool.not_true, Bool.false_eq_true,
      if_false]
    have he := hl.1
    have hb := hl.2 h
    constructor
    · omega
    · omega
  · simp only [ContextManager.retrieve_context, hc, Bool.not_false, if_true,
      List.map_nil, List.sum_nil]
    exact ⟨h, by trivial⟩

/-- Witness for C4 at the orchestrator's concrete budget of 3000. -/
theorem C4_token_budget_witness :
    (0 : ℤ) ≤ 3000 ∧
    ((((ContextManager.mk0 true).retrieve_context [⟨"t", "abcdefgh"⟩] 3000 []).1.map
        (fun p => estTok p.content)).sum ≤ 3000 ∧
    ((ContextManager.mk0 true).retrieve_context [⟨"t", "abcdefgh"⟩] 3000 []).2.tokens_retrieved =
      ((((ContextManager.mk0 true).retrieve_context [⟨"t", "abcdefgh"⟩] 3000 []).1.map
        (fun p => estTok p.content)).sum)) :=
  ⟨by norm_num,
   C4_token_budget (ContextManager.mk0 true) [⟨"t", "abcdefgh"⟩] 3000 [] (by norm_num)⟩

theorem retrieveLoop_list (exclude : List String) (maxTok : ℤ) :
    ∀ (results : List Passage) (cur : ℤ) (exc : ℕ),
      (retrieveLoop exclude maxTok results cur exc).1 =
        (filteredCandidates exclude results).take
          (retrieveLoop exclude maxTok results cur exc).1.length ∧
      (∀ p, (filteredCandidates exclude results).get?
          (retrieveLoop exclude maxTok results cur exc).1.length = some p →
        (retrieveLoop exclude maxTok results cur exc).2.1 + estTok p.content > maxTok) := by
  intro results
  induction results with
  | nil => intro cur exc; simp [retrieveLoop, filteredCandidates]
  | cons p rest ih =>
    intro cur exc
    by_cases h1 : pyLower p.title ∈ exclude
    · have hf : filteredCandidates exclude (p :: rest) = filteredCandidates exclude rest := by
        simp [filteredCandidates, List.filter_cons, h1]
      rw [hf]
      simpa [retrieveLoop, h1] using ih cur (exc + 1)
    · by_cases h2 : p.content = ""
      · have hf : filteredCandidates exclude (p :: rest) = filteredCandidates exclude rest := by
          simp [filteredCandidates, List.filter_cons, h1, h2]
        rw [hf]
        simpa [retrieveLoop, h1, h2] using ih cur exc
      · have hf : filteredCandidates exclude (p :: rest) =
            p :: filteredCandidates exclude rest := by
          simp [filteredCandidates, List.filter_cons, h1, h2]
        rw [hf]
        by_cases h3 : cur + estTok p.content > maxTok
        · simp only [retrieveLoop, if_neg h1, if_neg h2, if_pos h3, List.length_nil,
            List.take_zero, List.get?]
          exact ⟨by trivial, fun q hq => by cases hq; exact h3⟩
        · have hrec := ih (cur + estTok p.content) exc
          simp only [retrieveLoop, if_neg h1, if_neg h2, if_neg h3, List.length_cons,
            List.take_succ_cons, List.get?]
          exact ⟨by rw [← hrec.1], hrec.2⟩

/-- C9: the passages accepted by `retrieve_context` always form a
prefix of the ranked, non-excluded, non-empty candidate list, and when
that prefix is proper the very next candidate is one whose estimated
token count would push the cumulative total over `max_tokens` — the
loop breaks there, so no later candidate is accepted even if it would
still fit. -/
theorem C9_greedy_prefix (cm : ContextManager) (results : List Passage)
    (maxTok : ℤ) (exclude : List String) (h : cm.has_chroma = true) :
    (cm.retrieve_context results maxTok exclude).1 =
      (filteredCandidates exclude results).take
        (cm.retrieve_context results maxTok exclude).1.length ∧
    ∀ p, (filteredCandidates exclude results).get?
        (cm.retrieve_context results maxTok exclude).1.length = some p →
      ((((cm.retrieve_context results maxTok exclude).1.map
        (fun q => estTok q.content)).sum) + estTok p.content > maxTok) := by
  have hl := retrieveLoop_list exclude maxTok results 0 0
  have ht := retrieveLoop_tokens exclude maxTok results 0 0
  simp only [ContextManager.retrieve_context, h, Bool.not_true, Bool.false_eq_true, if_false]
  refine ⟨hl.1, fun p hp => ?_⟩
  have := hl.2 p hp
  omega

/-- Witness for C9: with a zero budget the first nonempty candidate
overflows, so nothing is accepted even though a later empty-estimate
candidate would fit. -/
theorem C9_greedy_prefix_witness :
    (ContextManager.mk0 true).has_chroma = true ∧
    (((ContextManager.mk0 true).retrieve_context [⟨"a", "abcdefgh"⟩, ⟨"b", "abc"⟩] 0 []).1 =
      (filteredCandidates [] [⟨"a", "abcdefgh"⟩, ⟨"b", "abc"⟩]).take
        ((ContextManager.mk0 true).retrieve_context
          [⟨"a", "abcdefgh"⟩, ⟨"b", "abc"⟩] 0 []).1.length ∧
    ∀ p, (filteredCandidates [] [⟨"a", "abcdefgh"⟩, ⟨"b", "abc"⟩]).get?
        ((ContextManager.mk0 true).retrieve_context
          [⟨"a", "abcdefgh"⟩, ⟨"b", "abc"⟩] 0 []).1.length = some p →
      ((((ContextManager.mk0 true).retrieve_context
          [⟨"a", "abcdefgh"⟩, ⟨"b", "abc"⟩] 0 []).1.map
        (fun q => estTok q.content)).sum + estTok p.content > 0)) :=
  ⟨rfl,
   C9_greedy_prefix (ContextManager.mk0 true) [⟨"a", "abcdefgh"⟩, ⟨"b", "abc"⟩] 0 [] rfl⟩

/-! ## Orchestrator: event-shape and preservation lemmas -/

theorem vramEvents_no_crash (bs di : ℕ) :
    ∀ e ∈ vramEvents bs di, e.isCrash = false := by
  intro e he
  simp only [vramEvents, List.mem_filterMap] at he
  obtain ⟨i, _, hi⟩ := he
  split at hi
  · cases hi
    rfl
  · cases hi

theorem transitionEvents_no_crash (pc : Option String) (d : Doc) :
    ∀ e ∈ transitionEvents pc d, e.isCrash = false := by
  intro e he
  rcases pc with _ | pc <;>
    · simp only [transitionEvents] at he
      split_ifs at he <;> simp_all [Event.isCrash]

theorem waitTelemetry_no_crash (st : OrchState) (env : Env) (total duration : ℕ) :
    ∀ e ∈ (waitTelemetry st env total duration).2, e.isCrash = false := by
  intro e he
  simp only [waitTelemetry] at he
  split at he
  · cases he
  · simp only [List.mem_map] at he
    obtain ⟨k, _, hk⟩ := he
    subst hk
    rfl

theorem waitTelemetry_tier (st : OrchState) (env : Env) (total duration : ℕ) :
    (waitTelemetry st env total duration).1.tier = st.tier := by
  simp only [waitTelemetry]
  split <;> rfl

theorem cycleRag_no_crash (st : OrchState) (env : Env) (batch : List Doc) :
    ∀ e ∈ (cycleRag st env batch).2, e.isCrash = false := by
  intro e he
  simp only [cycleRag] at he
  split_ifs at he <;> first
    | cases he
    | (split at he <;> first
        | cases he
        | (split_ifs at he <;> simp_all [Event.isCrash]))

theorem cycleRag_tier (st : OrchState) (env : Env) (batch : List Doc) :
    (cycleRag st env batch).1.tier = st.tier := by
  simp only [cycleRag]
  split_ifs <;> first
    | rfl
    | (split <;> rfl)

theorem mkThoughtEvent_error_status (text step_type author : String) (source : Option String) :
    mkThoughtEvent text "ERROR" step_type author source =
      .error "ValidationError: ThoughtData.status ERROR" := rfl

theorem mkThoughtEvent_complete (text step_type author : String) (source : Option String) :
    mkThoughtEvent text "COMPLETE" step_type author source =
      .ok (Event.thought text "COMPLETE" step_type author source) := rfl

theorem runStep_no_crash (env : Env) (dm cat : String) (d : Doc) (bs di : ℕ)
    (st : OrchState) (s : AgentStep) :
    ∀ e ∈ (runStep env dm cat d bs di st s).2.1, e.isCrash = false := by
  simp only [runStep, mkThoughtEvent_error_status, mkThoughtEvent_complete]
  by_cases hsw : (s.model.getD dm ≠ st.current_model) <;>
    simp only [if_pos hsw, if_neg hsw] <;>
    split
  · intro e he; fin_cases he <;> rfl
  · refine List.forall_mem_append.mpr
      ⟨List.forall_mem_append.mpr ⟨List.forall_mem_append.mpr ⟨?_, ?_⟩, ?_⟩, ?_⟩
    · intro e he; fin_cases he <;> rfl
    · intro e he; fin_cases he <;> rfl
    · intro e he
      obtain ⟨x, _, hx⟩ := List.mem_map.mp he
      subst hx; rfl
    · exact vramEvents_no_crash bs di
  · intro e he; cases he
  · refine List.forall_mem_append.mpr
      ⟨List.forall_mem_append.mpr ⟨List.forall_mem_append.mpr ⟨?_, ?_⟩, ?_⟩, ?_⟩
    · intro e he; cases he
    · intro e he; fin_cases he <;> rfl
    · intro e he
      obtain ⟨x, _, hx⟩ := List.mem_map.mp he
      subst hx; rfl
    · exact vramEvents_no_crash bs di

theorem runStep_tier (env : Env) (dm cat : String) (d : Doc) (bs di : ℕ)
    (st : OrchState) (s : AgentStep) :
    (runStep env dm cat d bs di st s).1.tier = st.tier := by
  simp only [runStep, mkThoughtEvent_error_status, mkThoughtEvent_complete]
  by_cases hsw : (s.model.getD dm ≠ st.current_model) <;>
    simp only [if_pos hsw, if_neg hsw] <;>
    split <;>
    first
      | rfl
      | (split <;> first | rfl | (split <;> rfl))

theorem runSteps_no_crash (env : Env) (dm cat : String) (d : Doc) (bs di : ℕ) :
    ∀ (steps : List AgentStep) (st : OrchState),
      ∀ e ∈ (runSteps env dm cat d bs di st steps).2.1, e.isCrash = false := by
  intro steps
  induction steps with
  | nil => intro st e he; cases he
  | cons s rest ih =>
    intro st e he
    simp only [runSteps] at he
    split at he
    · exact runStep_no_crash env dm cat d bs di st s e he
    · simp only [List.mem_append] at he
      rcases he with he | he
      · exact runStep_no_crash env dm cat d bs di st s e he
      · exact ih _ e he

theorem runSteps_tier (env : Env) (dm cat : String) (d : Doc) (bs di : ℕ) :
    ∀ (steps : List AgentStep) (st : OrchState),
      (runSteps env dm cat d bs di st steps).1.tier = st.tier := by
  intro steps
  induction steps with
  | nil => intro st; rfl
  | cons s rest ih =>
    intro st
    simp only [runSteps]
    split
    · exact runStep_tier env dm cat d bs di st s
    · show (runSteps env dm cat d bs di _ rest).1.tier = st.tier
      rw [ih, runStep_tier]

theorem runAgentCycle_no_crash (st : OrchState) (env : Env) (processed : List Doc)
    (cat : String) (d : Doc) (bs di : ℕ) :
    ∀ e ∈ (runAgentCycle st env processed cat d bs di).2.1, e.isCrash = false := by
  intro e he
  simp only [runAgentCycle] at he
  split_ifs at he
  · cases he
  · cases he
  · split at he
    · cases he
    · simp only [List.append_assoc, List.mem_append] at he
      rcases he with he | he | he
      · split at he
        · simp only [List.mem_singleton] at he
          subst he; rfl
        · cases he
      · exact cycleRag_no_crash _ env _ e he
      · exact runSteps_no_crash env _ cat d bs di _ _ e he

theorem runAgentCycle_tier (st : OrchState) (env : Env) (processed : List Doc)
    (cat : String) (d : Doc) (bs di : ℕ) :
    (runAgentCycle st env processed cat d bs di).1.tier = st.tier := by
  simp only [runAgentCycle]
  split_ifs
  · rfl
  · rfl
  · split
    · rfl
    · rw [runSteps_tier, cycleRag_tier]

theorem runLoop_terminal (env : Env) (docsAll : List Doc) (total duration : ℕ) :
    ∀ (rest : List Doc) (i batch : ℕ) (prevCat : Option String) (st : OrchState),
      (runLoop env docsAll total duration rest i batch prevCat st).err = none →
      ∃ e, (runLoop env docsAll total duration rest i batch prevCat st).events.getLast? =
          some e ∧
        (e = .status "Analysis Finalized" ∨ e.isCrash = true) := by
  intro rest
  induction rest with
  | nil =>
    intro i batch prevCat st _
    exact ⟨.status "Analysis Finalized", rfl, Or.inl rfl⟩
  | cons d rest ih =>
    intro i batch prevCat st herr
    simp only [runLoop] at herr ⊢
    split at herr <;> rename_i hcr
    · rw [if_pos hcr, List.getLast?_concat]
      exact ⟨_, rfl, Or.inr rfl⟩
    · rw [if_neg hcr]
      split at herr <;> rename_i hbc
      · rw [if_pos hbc]
        split <;> rename_i heq
        · simp only [heq] at herr
          exact Option.noConfusion herr
        · simp only [heq] at herr
          obtain ⟨e, he1, he2⟩ := ih (i + 1) 0 (some d.category) _ herr
          refine ⟨e, ?_, he2⟩
          rw [List.getLast?_append_of_ne_nil _ ?hne]
          case hne =>
            intro hnil
            rw [hnil] at he1
            exact Option.noConfusion he1
          exact he1
      · rw [if_neg hbc]
        obtain ⟨e, he1, he2⟩ := ih (i + 1) (batch + 1) (some d.category) _ herr
        refine ⟨e, ?_, he2⟩
        rw [List.getLast?_append_of_ne_nil _ ?hne2]
        case hne2 =>
          intro hnil
          rw [hnil] at he1
          exact Option.noConfusion he1
        exact he1

theorem preEvents_no_crash (pc : Option String) (d : Doc) (i total : ℕ)
    (md : MemoryData) (b : Bool) :
    ∀ e ∈ (transitionEvents pc d ++
      [Event.document d.name i total d.category d.size_kb,
       Event.documentStatus i "processing", Event.memory md] ++
      (if b = true then [] else [Event.performance])), e.isCrash = false := by
  intro e he
  rcases List.mem_append.mp he with he | he
  · rcases List.mem_append.mp he with he | he
    · exact transitionEvents_no_crash pc d e he
    · fin_cases he <;> rfl
  · split at he
    · cases he
    · fin_cases he <;> rfl

theorem crash_processed_le (T i total : ℕ) (h1 : i + 1 ≤ total) :
    pyInt ((T : ℚ) * ((((i : ℚ) + 1) / (total : ℚ)) * 100 / 100)) ≤ (T : ℤ) := by
  have htot : (0 : ℚ) < (total : ℚ) := by
    have h0 : 0 < total := lt_of_lt_of_le (Nat.succ_pos i) h1
    exact_mod_cast h0
  have hx : (((i : ℚ) + 1) / (total : ℚ)) * 100 / 100 = ((i : ℚ) + 1) / (total : ℚ) := by
    field_simp
    ring
  rw [hx]
  have hle : ((i : ℚ) + 1) / (total : ℚ) ≤ 1 := by
    rw [div_le_one htot]
    exact_mod_cast h1
  have hq0 : (0 : ℚ) ≤ (T : ℚ) * (((i : ℚ) + 1) / (total : ℚ)) := by positivity
  have hqT : (T : ℚ) * (((i : ℚ) + 1) / (total : ℚ)) ≤ (T : ℚ) := by
    calc (T : ℚ) * (((i : ℚ) + 1) / (total : ℚ)) ≤ (T : ℚ) * 1 :=
          mul_le_mul_of_nonneg_left hle (by positivity)
      _ = (T : ℚ) := mul_one _
  rw [pyInt, if_pos hq0]
  calc ⌊(T : ℚ) * (((i : ℚ) + 1) / (total : ℚ))⌋ ≤ ⌊(T : ℚ)⌋ := Int.floor_le_floor hqT
    _ = (T : ℤ) := Int.floor_natCast T

theorem runLoop_crash (env : Env) (docsAll : List Doc) (total duration : ℕ) :
    ∀ (rest : List Doc) (i batch : ℕ) (prevCat : Option String) (st : OrchState)
      (re : String) (p : ℤ) (t : ℕ) (sn : MemoryData) (rv : ℚ),
      i + rest.length = total →
      Event.crash re p t sn rv ∈
        (runLoop env docsAll total duration rest i batch prevCat st).events →
      ((runLoop env docsAll total duration rest i batch prevCat st).events.getLast? =
          some (Event.crash re p t sn rv) ∧
        t = (if st.tier = "large" then 268 else 18) ∧ p ≤ (t : ℤ)) := by
  intro rest
  induction rest with
  | nil =>
    intro i batch prevCat st re p t sn rv _ hmem
    simp only [runLoop, List.mem_singleton] at hmem
    exact Event.noConfusion hmem
  | cons d rest ih =>
    intro i batch prevCat st re p t sn rv hinv hmem
    have hi1 : i + 1 ≤ total := by
      simp only [List.length_cons] at hinv
      omega
    have hinv' : (i + 1) + rest.length = total := by
      simp only [List.length_cons] at hinv
      omega
    simp only [runLoop] at hmem ⊢
    split at hmem <;> rename_i hcr
    · rw [if_pos hcr]
      rcases List.mem_append.mp hmem with hm | hm
      · have := preEvents_no_crash prevCat d i total _ st.use_ollama _ hm
        exact absurd this (by simp [Event.isCrash])
      · simp only [List.mem_singleton, createCrashEvent] at hm
        simp only [Event.crash.injEq] at hm
        obtain ⟨h1, h2, h3, h4, h5⟩ := hm
        subst h1; subst h2; subst h3; subst h4; subst h5
        refine ⟨?_, ?_, ?_⟩
        · rw [List.getLast?_concat]
          simp [createCrashEvent]
        · rfl
        · exact crash_processed_le _ i total hi1
    · rw [if_neg hcr]
      split at hmem <;> rename_i hbc
      · rw [if_pos hbc]
        split <;> rename_i heq
        · simp only [heq] at hmem
          rcases List.mem_append.mp hmem with hm | hm
          · rcases List.mem_append.mp hm with hm | hm
            · have := preEvents_no_crash prevCat d i total _ st.use_ollama _ hm
              exact absurd this (by simp [Event.isCrash])
            · simp only [List.mem_singleton] at hm
              exact Event.noConfusion hm
          · have := runAgentCycle_no_crash _ env _ _ _ _ _ _ hm
            exact absurd this (by simp [Event.isCrash])
        · simp only [heq] at hmem
          rcases List.mem_append.mp hmem with hm | hm
          · rcases List.mem_append.mp hm with hm | hm
            · rcases List.mem_append.mp hm with hm | hm
              · have := preEvents_no_crash prevCat d i total _ st.use_ollama _ hm
                exact absurd this (by simp [Event.isCrash])
              · simp only [List.mem_singleton] at hm
                exact Event.noConfusion hm
            · have := runAgentCycle_no_crash _ env _ _ _ _ _ _ hm
              exact absurd this (by simp [Event.isCrash])
          · obtain ⟨hg, ht, hp⟩ := ih (i + 1) 0 (some d.category) _ re p t sn rv hinv' hm
            have htr := runAgentCycle_tier
              { st with nTel := st.nTel + 1 } env (docsAll.take (i + 1)) d.category d
              (batch + 1) i
            rw [htr] at ht
            refine ⟨?_, ht, hp⟩
            rw [List.getLast?_append_of_ne_nil _ ?hne3]
            case hne3 =>
              intro hnil
              rw [hnil] at hg
              exact Option.noConfusion hg
            exact hg
      · rw [if_neg hbc]
        rcases List.mem_append.mp hmem with hm | hm
        · rcases List.mem_append.mp hm with hm | hm
          · have := preEvents_no_crash prevCat d i total _ st.use_ollama _ hm
            exact absurd this (by simp [Event.isCrash])
          · have := waitTelemetry_no_crash _ env total duration _ hm
            exact absurd this (by simp [Event.isCrash])
        · obtain ⟨hg, ht, hp⟩ := ih (i + 1) (batch + 1) (some d.category) _ re p t sn rv hinv' hm
          have htw := waitTelemetry_tier { st with nTel := st.nTel + 1 } env total duration
          rw [htw] at ht
          refine ⟨?_, ht, hp⟩
          rw [List.getLast?_append_of_ne_nil _ ?hne4]
          case hne4 =>
            intro hnil
            rw [hnil] at hg
            exact Option.noConfusion hg
          exact hg

/-! ## Run termination (C5) -/

/-- C5 (counterexample): a run that starts successfully and processes
its whole (one-document) list terminates, but its final event is the
terminal status event "Analysis Finalized" — not a `complete` event;
indeed no `complete` event (and no crash event) occurs anywhere in the
stream, refuting the claim that every terminating run ends with a
`complete` or `crash` event. -/
theorem C5_counterexample :
    (run_simulation (mkOrch false true true) envQuiet [newsDoc "n1"] 0 0).err = none ∧
    (run_simulation (mkOrch false true true) envQuiet [newsDoc "n1"] 0 0).events.getLast? =
      some (Event.status "Analysis Finalized") ∧
    ∀ e ∈ (run_simulation (mkOrch false true true) envQuiet [newsDoc "n1"] 0 0).events,
      e ≠ Event.complete ∧ e.isCrash = false := by
  refine ⟨rfl, rfl, ?_⟩
  decide

/-- C5 (amended): every run that starts successfully and is not aborted
by an uncaught exception terminates by emitting either the terminal
status event "Analysis Finalized" or a crash event as its final event;
in particular a run that processes its entire document list without
crashing ends with the terminal status event (never a `complete`
event, which nothing emits). -/
theorem C5_terminal_event (st : OrchState) (env : Env) (docs : List Doc)
    (cfg_total duration : ℕ)
    (h : (run_simulation st env docs cfg_total duration).err = none) :
    ∃ e, (run_simulation st env docs cfg_total duration).events.getLast? = some e ∧
      (e = Event.status "Analysis Finalized" ∨ e.isCrash = true) := by
  simp only [run_simulation] at h ⊢
  split at h <;> rename_i hemp
  · have hd : docs = [] := by
      cases docs with
      | nil => rfl
      | cons a as => simp at hemp
    subst hd
    rw [if_pos hemp]
    simp only [List.length_nil] at h ⊢
    rw [if_neg (by omega : ¬ ((0 : ℕ) > 0))] at h ⊢
    split at h <;> rename_i htot
    · exact Option.noConfusion h
    · simp only [if_neg htot]
      refine ⟨Event.status "Analysis Finalized", ?_, Or.inl rfl⟩
      rw [List.getLast?_append_of_ne_nil _ (by intro hc; cases hc)]
      rfl
  · rw [if_neg hemp]
    obtain ⟨e, he1, he2⟩ := runLoop_terminal env docs _ duration docs 0 0 none _ h
    refine ⟨e, ?_, he2⟩
    rw [List.getLast?_append_of_ne_nil _ ?hne5]
    case hne5 =>
      intro hnil
      rw [hnil] at he1
      exact Option.noConfusion he1
    exact he1

/-- Witness for C5 (amended) at a concrete successful run. -/
theorem C5_terminal_event_witness :
    (run_simulation (mkOrch true true true) envQuiet docs5 0 0).err = none ∧
    ∃ e, (run_simulation (mkOrch true true true) envQuiet docs5 0 0).events.getLast? =
        some e ∧
      (e = Event.status "Analysis Finalized" ∨ e.isCrash = true) :=
  ⟨rfl, C5_terminal_event (mkOrch true true true) envQuiet docs5 0 0 rfl⟩

/-! ## Batch boundaries (C6) -/

/-- C6: a batch closes exactly when the next document's category
differs, or the current category is individually processed (`image`,
or `documentation` with "transcript" in the name), or the batch has
reached the fixed ceiling of 4, or the current document is the last
one; consequently the concrete run over 5 consecutive same-category
documents triggers exactly two Agent Cycles, the first covering 4
documents and the second 1. -/
theorem C6_batch_boundaries :
    (∀ (d : Doc) (next : Option Doc) (k : ℕ),
      batchCloses d next k = true ↔
        (next = none ∨
         (∃ nd, next = some nd ∧ nd.category ≠ d.category) ∨
         d.category = "image" ∨
         (d.category = "documentation" ∧ containsSub "transcript" (pyLower d.name) = true) ∨
         4 ≤ k)) ∧
    (run_simulation (mkOrch true true true) envQuiet docs5 0 0).cycles =
      [("news", 4), ("news", 1)] := by
  constructor
  · intro d next k
    cases next with
    | none => simp [batchCloses]
    | some nd =>
      simp only [batchCloses]
      split_ifs with h1 h2 h3 h4
      · exact iff_of_true rfl (Or.inr (Or.inl ⟨nd, rfl, fun hc => h1 hc.symm⟩))
      · exact iff_of_true rfl (Or.inr (Or.inr (Or.inl h2)))
      · simp only [Bool.and_eq_true, decide_eq_true_eq] at h3
        exact iff_of_true rfl (Or.inr (Or.inr (Or.inr (Or.inl h3))))
      · exact iff_of_true rfl (Or.inr (Or.inr (Or.inr (Or.inr h4))))
      · refine iff_of_false (by simp) ?_
        rintro (h | ⟨nd', hnd, hc⟩ | h | h | h)
        · simp at h
        · cases Option.some.inj hnd
          exact hc (not_ne_iff.mp h1).symm
        · exact h2 h
        · exact h3 (by simp only [Bool.and_eq_true, decide_eq_true_eq]; exact h)
        · exact h4 h
  · rfl

/-! ## Agent-cycle error handling (C7) -/

/-- C7: the per-step `except` handler of `_run_agent_cycle` (lines
803-813) means to convert a step's exception into an ERROR-status
thought event so the run can continue, but the `status` Literal of
`ThoughtData` (schemas.py line 51) does not admit `"ERROR"`, so the
handler's own `ThoughtData(status="ERROR", ...)` construction raises a
pydantic `ValidationError` that nothing catches.  In the concrete run
below, whose single step's model call raises, the run aborts with the
uncaught validation error: no ERROR-status thought event is ever
emitted, and the run reaches neither the terminal `Analysis Finalized`
status nor a crash event — it does not continue to the next document
as the claim requires. -/
theorem C7_error_not_converted :
    (run_simulation (mkOrch true true true) envLLMFail [newsDoc "n1"] 0 0).err =
      some "ValidationError: ThoughtData.status ERROR" ∧
    ∀ e ∈ (run_simulation (mkOrch true true true) envLLMFail [newsDoc "n1"] 0 0).events,
      e.isErrorThought = false ∧ e ≠ Event.status "Analysis Finalized" ∧
        e.isCrash = false := by
  refine ⟨rfl, ?_⟩
  decide

/-! ## Crash event contents (C8) -/

theorem pre0_no_crash (tier : String) (uo : Bool) :
    ∀ e ∈ ([Event.status ("Loading " ++ tier ++ " tier documents...")] ++
      (if uo = true then [Event.status "Preparing AI model for analysis..."] else []) ++
      [Event.status "Starting document processing..."]), e.isCrash = false := by
  intro e he
  rcases List.mem_append.mp he with he | he
  · rcases List.mem_append.mp he with he | he
    · fin_cases he; rfl
    · split at he
      · fin_cases he; rfl
      · cases he
  · fin_cases he; rfl

theorem memHigh_calc :
    ((MemoryMonitor.init false telemQuiet).set_context_size 0).calculate_memory telemHigh
      none = (c8snap, true) := by
  simp only [MemoryMonitor.init, MemoryMonitor.set_context_size, MemoryMonitor.calculate_memory,
    MemoryMonitor.estimate_kv_cache_size, telemQuiet, telemHigh, c8snap, Prod.mk.injEq,
    MemoryData.mk.injEq, Bool.not_false, Bool.true_and, decide_eq_true_eq]
  norm_num [round1, round2, roundHalfEven]

theorem c8run_events :
    (run_simulation (mkOrch false true false) envHigh [newsDoc "solo"] 0 0).events =
      [Event.status "Loading standard tier documents...",
       Event.status "Starting document processing...",
       Event.init 1,
       Event.status "Ingesting CES News Feed...",
       Event.document "solo" 0 1 "news" 1,
       Event.documentStatus 0 "processing",
       Event.memory c8snap,
       Event.performance,
       Event.crash "Out of unified memory - aiDAPTIV+ required for this workload"
         18 18 c8snap 48] := by
  simp only [run_simulation, runLoop, resetForRun, mkOrch, envHigh, envQuiet, newsDoc,
    transitionEvents, createCrashEvent, memHigh_calc]
  rw [if_neg (by decide : ¬(("news" : String) = "image")),
      if_neg (by decide : ¬(("news" : String) = "dossier")),
      if_neg (by decide : ¬(("standard" : String) = "large"))]
  norm_num [pyInt]
  decide

/-- C8 (counterexample): a crash on the last (single) document of a
standard-tier run reports `processed_documents = 18` and
`total_documents = 18` — the totals are hardcoded per tier, not the
scenario's actual count (1 document here), and
`processed_documents < total_documents` fails. -/
theorem C8_counterexample :
    (run_simulation (mkOrch false true false) envHigh [newsDoc "solo"] 0 0).events.getLast? =
      some (Event.crash "Out of unified memory - aiDAPTIV+ required for this workload"
        18 18 c8snap 48) ∧
    ¬((18 : ℤ) < ((18 : ℕ) : ℤ)) ∧ [newsDoc "solo"].length ≠ 18 := by
  refine ⟨?_, by decide, by decide⟩
  rw [c8run_events]
  rfl

/-- C8 (amended): when the crash predicate fires with the feature flag
off, the run emits a crash event and terminates — the crash event is
always the final event of the stream — and the event's data reports
`total_documents` as the hardcoded tier constant (268 for the "large"
tier, 18 otherwise, irrespective of the scenario's real document
count) and `processed_documents = int(total_documents × progress/100)`,
which is at most `total_documents` (equality is reached when the crash
fires on the last document, so strict inequality is not guaranteed). -/
theorem C8_crash_event_fields (st : OrchState) (env : Env) (docs : List Doc)
    (cfg_total duration : ℕ) (re : String) (p : ℤ) (t : ℕ) (sn : MemoryData) (rv : ℚ)
    (h : Event.crash re p t sn rv ∈ (run_simulation st env docs cfg_total duration).events) :
    (run_simulation st env docs cfg_total duration).events.getLast? =
      some (Event.crash re p t sn rv) ∧
    t = (if st.tier = "large" then 268 else 18) ∧
    p ≤ (t : ℤ) := by
  simp only [run_simulation] at h ⊢
  split at h <;> rename_i hemp
  · exfalso
    have hd : docs = [] := by
      cases docs with
      | nil => rfl
      | cons a as => simp at hemp
    subst hd
    simp only [List.length_nil] at h
    rw [if_neg (by omega : ¬ ((0 : ℕ) > 0))] at h
    split at h <;>
      · rcases List.mem_append.mp h with hm | hm
        · exact absurd (pre0_no_crash st.tier st.use_ollama _ hm) (by simp [Event.isCrash])
        · simp at hm
  · rw [if_neg hemp]
    have hlen : 0 < docs.length := by
      cases docs with
      | nil => exact absurd rfl hemp
      | cons a as => simp
    have htot' : (if docs.length > 0 then docs.length else cfg_total) = docs.length := by
      rw [if_pos hlen]
    rw [htot'] at h ⊢
    rcases List.mem_append.mp h with hm | hm
    · exfalso
      rcases List.mem_append.mp hm with hm | hm
      · exact absurd (pre0_no_crash st.tier st.use_ollama _ hm) (by simp [Event.isCrash])
      · simp at hm
    · obtain ⟨hg, ht, hp⟩ := runLoop_crash env docs docs.length duration docs 0 0 none
        (resetForRun st) re p t sn rv (by simp) hm
      have htr : (resetForRun st).tier = st.tier := rfl
      rw [htr] at ht
      refine ⟨?_, ht, hp⟩
      rw [List.getLast?_append_of_ne_nil _ ?hne6]
      case hne6 =>
        intro hnil
        rw [hnil] at hg
        exact Option.noConfusion hg
      exact hg

/-- Witness for C8 (amended) at the concrete crashing run. -/
theorem C8_crash_event_fields_witness :
    Event.crash "Out of unified memory - aiDAPTIV+ required for this workload"
        18 18 c8snap 48 ∈
      (run_simulation (mkOrch false true false) envHigh [newsDoc "solo"] 0 0).events ∧
    ((run_simulation (mkOrch false true false) envHigh [newsDoc "solo"] 0 0).events.getLast? =
      some (Event.crash "Out of unified memory - aiDAPTIV+ required for this workload"
        18 18 c8snap 48) ∧
    (18 : ℕ) = (if (mkOrch false true false).tier = "large" then 268 else 18) ∧
    (18 : ℤ) ≤ ((18 : ℕ) : ℤ)) :=
  ⟨by rw [c8run_events]; simp,
   C8_crash_event_fields (mkOrch false true false) envHigh [newsDoc "solo"] 0 0
     "Out of unified memory - aiDAPTIV+ required for this workload" 18 18 c8snap 48
     (by rw [c8run_events]; simp)⟩

end AiDaptiv
